import Mathlib

/-!
# Verification of the CSV persistence layer (`data_manager.py` / `models.py`)

This file gives a shallow embedding of the persistence/merge core of the
repository: the record codec (`models.py`: `to_csv_string`, `get_csv_header`,
`from_csv_row` for `License`, `User`, `PullRequest`, `Repository`) and the
table store (`data_manager.py`: `to_CSV`, `_get_unique_id`, `_entry_exists`,
`update_user_csv`, `load_repositories`, `load_pull_requests`,
`load_all_pull_requests`, `load_users`, `get_repository_summary`).

Modelling conventions:
* A file is a list of lines (each line without its trailing newline); a file
  that may be missing or unreadable is a `FileRead`.
* Python's `csv` module (default dialect: delimiter `,`, quotechar `"`,
  `doublequote=True`, non-strict) is modelled line-by-line by the state
  machine `csvGo`.  All rows written by this program are single physical
  lines (the writers strip `\r` and replace `\n` by a space), so a
  line-based reader is faithful on every file the program produces and on
  every input used below.
* Python `int(x)` is `pyIntOf`: `int` applied to a `str` strips surrounding
  whitespace and accepts an optional sign followed by digits (the model
  omits Python's underscore separators and non-ASCII digits, which never
  occur in the inputs considered here); `int` of the absent-field default
  `0` is `0`; `int(None)` (a `DictReader` `restval`) is a `TypeError`.
* Exceptions are modelled by `Except PyErr`; an uncaught Python exception is
  an `Except.error` result.
-/

/-- Parser state of the Python `csv` reader inside one line: at a field
boundary, inside an unquoted field, inside a quoted field, or just after a
quote character while inside a quoted field. -/
inductive PState where
  | start
  | unq
  | inq
  | postq
deriving DecidableEq

/-- One step of CPython's `_csv.c` field scanner (default dialect,
non-strict), specialised to delimiter `,` and quotechar `"`.  `acc` is the
current field read so far. -/
def csvGo : List Char → PState → List Char → List String
  | [], _, acc => [String.mk acc]
  | c :: cs, .start, acc =>
    if c = ',' then String.mk acc :: csvGo cs .start []
    else if c = '"' then csvGo cs .inq acc
    else csvGo cs .unq (acc ++ [c])
  | c :: cs, .unq, acc =>
    if c = ',' then String.mk acc :: csvGo cs .start []
    else csvGo cs .unq (acc ++ [c])
  | c :: cs, .inq, acc =>
    if c = '"' then csvGo cs .postq acc
    else csvGo cs .inq (acc ++ [c])
  | c :: cs, .postq, acc =>
    if c = '"' then csvGo cs .inq (acc ++ ['"'])
    else if c = ',' then String.mk acc :: csvGo cs .start []
    else csvGo cs .unq (acc ++ [c])

/-- Parse one physical CSV line into its fields; a blank line yields the
empty row (which `DictReader` skips), as in Python. -/
def parseCSVLine (s : String) : List String :=
  if s = "" then [] else csvGo s.data .start []

/-- A `DictReader` row: each header field name paired with its value, where
`none` is `DictReader`'s `restval` (`None`) used when the row has fewer
fields than the header.  Extra row fields beyond the header go to `restkey`
and are never consulted by this program, so they are dropped. -/
abbrev Row := List (String × Option String)

/-- `dict(zip(fieldnames, row))` with `restval=None` padding, as in
`csv.DictReader.__next__`. -/
def zipRow : List String → List String → Row
  | [], _ => []
  | h :: hs, [] => (h, none) :: zipRow hs []
  | h :: hs, v :: vs => (h, some v) :: zipRow hs vs

/-- All rows a `csv.DictReader` yields on a file: the first line is the
header, every later non-blank line is one row. -/
def dictRows (lines : List String) : List Row :=
  match lines with
  | [] => []
  | hdr :: rest =>
    ((rest.map parseCSVLine).filter (fun r => r ≠ [])).map (zipRow (parseCSVLine hdr))

/-- Python `dict` lookup on a row (header field names are distinct in every
table of this program, so first-match lookup is the dictionary lookup). -/
def rowFind : Row → String → Option (Option String)
  | [], _ => none
  | (k, v) :: rest, q => if k = q then some v else rowFind rest q

/-- `row.get(k, d)` used as a string: an absent key gives the default, a
present key gives the stored value.  When the stored value is the `restval`
`None`, the Python object would hold `None` itself; that case is modelled
by the default string and is never reached by any theorem below (it needs a
row shorter than the header at a string-valued column). -/
def pyGetD (row : Row) (k d : String) : String :=
  match rowFind row k with
  | none => d
  | some none => d
  | some (some s) => s

/-- `f"{row.get(k, d)}"`: Python str-formats the `restval` `None` as the
text `None`. -/
def pyFmtGetD (row : Row) (k d : String) : String :=
  match rowFind row k with
  | none => d
  | some none => "None"
  | some (some s) => s

/-- `row.get(k, d) == target` on strings: comparing the `restval` `None`
against a string is `False` in Python. -/
def pyEqGetD (row : Row) (k d target : String) : Bool :=
  match rowFind row k with
  | none => d == target
  | some none => false
  | some (some s) => s == target

/-- `row.get(k)` used as a truth value then kept (`x if x else None`), as in
`PullRequest.from_csv_row` for `closed_at`: absent, `None` and the empty
string all collapse to `None`. -/
def pyGetOpt (row : Row) (k : String) : Option String :=
  match rowFind row k with
  | some (some s) => if s = "" then none else some s
  | _ => none

/-- Python exceptions that can escape the persistence layer. -/
inductive PyErr where
  | valueErr
  | typeErr
  | ioErr
deriving DecidableEq

/-- `str.strip()` of surrounding whitespace, as done by Python `int`. -/
def stripWs (cs : List Char) : List Char :=
  ((cs.dropWhile Char.isWhitespace).reverse.dropWhile Char.isWhitespace).reverse

/-- Value of a most-significant-first digit string. -/
def digitsVal (ds : List Char) : Nat :=
  ds.foldl (fun a c => 10 * a + (c.toNat - 48)) 0

/-- A nonempty all-digit character list. -/
def digitsOnly (ds : List Char) : Bool :=
  !ds.isEmpty && ds.all Char.isDigit

/-- Python `int(s)` on a string: strip whitespace, optional sign, decimal
digits; anything else raises `ValueError` (`none` here). -/
def pyIntOf (s : String) : Option Int :=
  match stripWs s.data with
  | [] => none
  | c :: ds =>
    if c = '-' then (if digitsOnly ds then some (-(digitsVal ds : Int)) else none)
    else if c = '+' then (if digitsOnly ds then some ((digitsVal ds : Int)) else none)
    else if digitsOnly (c :: ds) then some ((digitsVal (c :: ds) : Int)) else none

/-- `int(row.get(k, 0))`: absent key gives `int(0) = 0`; the `restval`
`None` raises `TypeError`; a string value goes through `int(str)`. -/
def pyGetInt (row : Row) (k : String) : Except PyErr Int :=
  match rowFind row k with
  | none => .ok 0
  | some none => .error .typeErr
  | some (some s) =>
    match pyIntOf s with
    | some n => .ok n
    | none => .error .valueErr

/-- Python `str(i)` for an `int` (decimal representation, `-` sign). -/
def intStr : Int → String
  | .ofNat m => Nat.repr m
  | .negSucc m => "-" ++ Nat.repr (m + 1)

/-- The free-text escaping of `models.py`:
`.replace('"', '""').replace('\n', ' ').replace('\r', '')`, fused into one
pass (the three replacements are on disjoint single characters and the
doubled quote contains neither `\n` nor `\r`, so the chain equals the
single pass). -/
def escList : List Char → List Char
  | [] => []
  | c :: cs =>
    if c = '"' then '"' :: '"' :: escList cs
    else if c = '\n' then ' ' :: escList cs
    else if c = '\r' then escList cs
    else c :: escList cs

/-- The single-line display form a free-text field decodes back to: quotes
kept, `\n` becomes a space, `\r` removed. -/
def normList : List Char → List Char
  | [] => []
  | c :: cs =>
    if c = '"' then '"' :: normList cs
    else if c = '\n' then ' ' :: normList cs
    else if c = '\r' then normList cs
    else c :: normList cs

/-- String form of `escList`. -/
def escText (s : String) : String :=
  String.mk (escList s.data)

/-- String form of `normList`. -/
def normText (s : String) : String :=
  String.mk (normList s.data)

/-! ## The record classes of `models.py` -/

/-- `models.License`. -/
structure License where
  key : String
  name : String
  url : String
deriving DecidableEq

/-- `models.User`.  Numeric fields are Python `int`s. -/
structure User where
  login : String
  num_pull_requests : Int
  num_repos : Int
  num_followers : Int
  num_following : Int
  num_contributions : Int
deriving DecidableEq

/-- `models.PullRequest`.  `closed_at` may be Python `None`. -/
structure PullRequest where
  title : String
  number : Int
  body : String
  state : String
  created_at : String
  closed_at : Option String
  user : String
  commits : Int
  additions : Int
  deletions : Int
  changed_files : Int
  author_association : String
deriving DecidableEq

/-- `models.Repository`.  The transient `pull_requests` list is never
persisted and is omitted. -/
structure Repository where
  name : String
  owner : String
  description : String
  homepage : String
  license : License
  forks : Int
  watchers : Int
  stars : Int
  date_of_collection : String
deriving DecidableEq

/-- `User.get_csv_header`. -/
def User.get_csv_header : String :=
  "login,num_pull_requests,num_repos,num_followers,num_following,num_contributions"

/-- `User.to_csv_string`. -/
def User.to_csv_string (u : User) : String :=
  u.login ++ "," ++ intStr u.num_pull_requests ++ "," ++ intStr u.num_repos ++ ","
    ++ intStr u.num_followers ++ "," ++ intStr u.num_following ++ ","
    ++ intStr u.num_contributions

/-- `User.from_csv_row`; the `int(...)` coercions are evaluated in source
order and the first failure raises. -/
def User.from_csv_row (row : Row) : Except PyErr User := do
  let login := pyGetD row "login" ""
  let npr ← pyGetInt row "num_pull_requests"
  let nre ← pyGetInt row "num_repos"
  let nfo ← pyGetInt row "num_followers"
  let nfg ← pyGetInt row "num_following"
  let nco ← pyGetInt row "num_contributions"
  pure ⟨login, npr, nre, nfo, nfg, nco⟩

/-- `PullRequest.get_csv_header`. -/
def PullRequest.get_csv_header : String :=
  "number,title,body,state,created_at,closed_at,user,commits,additions,deletions,changed_files,author_association"

/-- `PullRequest.to_csv_string`: `title` and `body` are escaped and wrapped
in quotes, everything else is written raw; `closed_at` falls back to the
empty string when falsy. -/
def PullRequest.to_csv_string (p : PullRequest) : String :=
  intStr p.number ++ ",\"" ++ escText p.title ++ "\",\"" ++ escText p.body ++ "\","
    ++ p.state ++ "," ++ p.created_at ++ "," ++ p.closed_at.getD "" ++ ","
    ++ p.user ++ "," ++ intStr p.commits ++ "," ++ intStr p.additions ++ ","
    ++ intStr p.deletions ++ "," ++ intStr p.changed_files ++ ","
    ++ p.author_association

/-- `PullRequest.from_csv_row`. -/
def PullRequest.from_csv_row (row : Row) : Except PyErr PullRequest := do
  let title := pyGetD row "title" ""
  let number ← pyGetInt row "number"
  let body := pyGetD row "body" ""
  let state := pyGetD row "state" ""
  let created_at := pyGetD row "created_at" ""
  let closed_at := pyGetOpt row "closed_at"
  let user := pyGetD row "user" ""
  let commits ← pyGetInt row "commits"
  let additions ← pyGetInt row "additions"
  let deletions ← pyGetInt row "deletions"
  let changed_files ← pyGetInt row "changed_files"
  let author_association := pyGetD row "author_association"  ""
  pure ⟨title, number, body, state, created_at, closed_at, user, commits,
        additions, deletions, changed_files, author_association⟩

/-- `Repository.get_csv_header`. -/
def Repository.get_csv_header : String :=
  "name,owner,description,homepage,license_key,license_name,forks,watchers,stars,date_of_collection"

/-- `Repository.to_csv_string`: only `description` is escaped and quoted;
the license is flattened to `key,name` (its `url` is not written). -/
def Repository.to_csv_string (r : Repository) : String :=
  r.name ++ "," ++ r.owner ++ ",\"" ++ escText r.description ++ "\","
    ++ r.homepage ++ "," ++ r.license.key ++ "," ++ r.license.name ++ ","
    ++ intStr r.forks ++ "," ++ intStr r.watchers ++ "," ++ intStr r.stars ++ ","
    ++ r.date_of_collection

/-- `Repository.from_csv_row`; the reconstructed `License` gets the
constructor default `url = ''`. -/
def Repository.from_csv_row (row : Row) : Except PyErr Repository := do
  let license : License := ⟨pyGetD row "license_key" "", pyGetD row "license_name" "", ""⟩
  let name := pyGetD row "name" ""
  let owner := pyGetD row "owner" ""
  let description := pyGetD row "description" ""
  let homepage := pyGetD row "homepage" ""
  let forks ← pyGetInt row "forks"
  let watchers ← pyGetInt row "watchers"
  let stars ← pyGetInt row "stars"
  let date_of_collection := pyGetD row "date_of_collection" ""
  pure ⟨name, owner, description, homepage, license, forks, watchers, stars,
        date_of_collection⟩

/-! ## The table store of `data_manager.py` -/

/-- Outcome of opening a table file for reading: the file may be missing,
the open may raise `IOError`, or the lines are read. -/
inductive FileRead where
  | missing
  | readFail
  | found (lines : List String)
deriving DecidableEq

/-- The three entity kinds `to_CSV` dispatches on with `isinstance`. -/
inductive Entity where
  | repo (r : Repository)
  | pr (p : PullRequest)
  | user (u : User)
deriving DecidableEq

/-- `obj.get_csv_header()` under the `isinstance` dispatch. -/
def Entity.get_csv_header : Entity → String
  | .repo _ => Repository.get_csv_header
  | .pr _ => PullRequest.get_csv_header
  | .user _ => User.get_csv_header

/-- `obj.to_csv_string()` under the `isinstance` dispatch. -/
def Entity.to_csv_string : Entity → String
  | .repo r => r.to_csv_string
  | .pr p => p.to_csv_string
  | .user u => u.to_csv_string

/-- `_get_unique_id`. -/
def get_unique_id : Entity → String
  | .repo r => r.owner ++ "/" ++ r.name
  | .pr p => intStr p.number
  | .user _u => _u.login

/-- `_entry_exists` on the lines of an existing file: `DictReader` the file
(its own first line is the header) and compare each row's key with
`unique_id`.  The Repository branch str-formats the two lookups, the other
branches compare `row.get(k, '')` directly. -/
def entry_exists (lines : List String) (e : Entity) (uid : String) : Bool :=
  (dictRows lines).any fun row =>
    match e with
    | .repo _ => (pyFmtGetD row "owner" "" ++ "/" ++ pyFmtGetD row "name" "") == uid
    | .pr _ => pyEqGetD row "number" "" uid
    | .user _ => pyEqGetD row "login" "" uid

/-- `to_CSV`.  `content` is the current file (`none` when
`os.path.isfile` is false).  `readFails` makes the `open` inside
`_entry_exists` raise `IOError`, which that helper catches and turns into
`False`; `writeFails` makes the final `open(filename, 'a')` raise, and that
call sits outside any `try`, so the error escapes `to_CSV`. -/
def to_CSV (readFails writeFails : Bool) (content : Option (List String))
    (e : Entity) : Except PyErr (List String) :=
  match content with
  | some lines =>
    if (if readFails then false else entry_exists lines e (get_unique_id e)) then
      .ok lines
    else if writeFails then .error .ioErr
    else .ok (lines ++ [e.to_csv_string])
  | none =>
    if writeFails then .error .ioErr
    else .ok [e.get_csv_header, e.to_csv_string]

/-- `load_users`.  A missing file and an `IOError` both give `[]` (the
latter after the logged diagnostic); a decode failure (`ValueError` or
`TypeError` from `int`) is not caught and propagates, discarding every row
read so far. -/
def load_users : FileRead → Except PyErr (List User)
  | .missing => .ok []
  | .readFail => .ok []
  | .found lines => (dictRows lines).mapM User.from_csv_row

/-- `load_repositories`, same failure behaviour as `load_users`. -/
def load_repositories : FileRead → Except PyErr (List Repository)
  | .missing => .ok []
  | .readFail => .ok []
  | .found lines => (dictRows lines).mapM Repository.from_csv_row

/-- `load_pull_requests` given the opened per-repository file, same failure
behaviour as `load_users`. -/
def load_pull_requests : FileRead → Except PyErr (List PullRequest)
  | .missing => .ok []
  | .readFail => .ok []
  | .found lines => (dictRows lines).mapM PullRequest.from_csv_row

/-- The in-place merge of `update_user_csv` lines 132-142: the first stored
user with the same login gets `num_pull_requests` added and the four
profile counters maxed. -/
def mergeUsers (old incoming : User) : User :=
  { old with
    num_pull_requests := old.num_pull_requests + incoming.num_pull_requests
    num_repos := max old.num_repos incoming.num_repos
    num_followers := max old.num_followers incoming.num_followers
    num_following := max old.num_following incoming.num_following
    num_contributions := max old.num_contributions incoming.num_contributions }

/-- The scan-update-or-append loop of `update_user_csv`: merge into the
first login match (then `break`), else append at the end. -/
def mergeScan : List User → User → List User
  | [], u => [u]
  | e :: es, u =>
    if e.login = u.login then mergeUsers e u :: es else e :: mergeScan es u

/-- `update_user_csv`.  A missing file is created as header plus the one
row; otherwise the file is loaded through `load_users` (whose decode
errors propagate), merged in memory, and rewritten whole as the canonical
header followed by every row. -/
def update_user_csv (content : Option (List String)) (user : User) :
    Except PyErr (List String) :=
  match content with
  | none => .ok [User.get_csv_header, user.to_csv_string]
  | some lines => do
    let existing ← load_users (.found lines)
    pure (User.get_csv_header :: (mergeScan existing user).map User.to_csv_string)

/-- Python `s.split(c, 1)`: `none` when `c` does not occur, else the parts
before and after the first occurrence. -/
def splitOnce (c : Char) : List Char → Option (List Char × List Char)
  | [] => none
  | x :: xs =>
    if x = c then some ([], xs)
    else match splitOnce c xs with
      | none => none
      | some (a, b) => some (x :: a, b)

/-- `load_all_pull_requests`.  `listing` is `os.listdir('projects')` and
`fs` maps a path to the outcome of opening it.  Filenames ending in `.csv`
have the suffix removed and the stem split on the first `-`; a stem with no
`-` is skipped.  Each recovered repository's PRs are tagged with
`owner/name`. -/
def load_all_pull_requests (listing : List String)
    (fs : String → FileRead) : Except PyErr (List (String × PullRequest)) :=
  listing.foldlM
    (fun acc fn =>
      if ".csv".data.isSuffixOf fn.data then
        match splitOnce '-' (fn.data.take (fn.data.length - 4)) with
        | some (o, r) => do
          let owner := String.mk o
          let rname := String.mk r
          let prs ← load_pull_requests
              (fs ("projects/" ++ owner ++ "-" ++ rname ++ ".csv"))
          pure (acc ++ prs.map fun pr => (owner ++ "/" ++ rname, pr))
        | none => pure acc
      else pure acc)
    []

/-- The summary dictionary of `get_repository_summary`. -/
structure Summary where
  open_prs : Nat
  closed_prs : Nat
  num_users : Nat
  oldest_pr_date : String
deriving DecidableEq

/-- One iteration of the oldest-date loop of `get_repository_summary`
lines 315-319: a PR with non-empty `created_at` contributes the first ten
characters of that date, kept when smaller than the best so far. -/
def oldestStep (acc : Option String) (pr : PullRequest) : Option String :=
  if pr.created_at ≠ "" then
    match acc with
    | none => some (pr.created_at.take 10)
    | some o =>
      if pr.created_at.take 10 < o then some (pr.created_at.take 10)
      else some o
  else acc

/-- The oldest-date loop of `get_repository_summary` lines 314-319: fold
over the PRs keeping the smallest 10-character prefix of the non-empty
`created_at` values. -/
def oldestFold (prs : List PullRequest) : Option String :=
  prs.foldl oldestStep none

/-- The pure part of `get_repository_summary`, computed from the loaded
PRs; `oldest_date or 'N/A'` renders the absent case as the sentinel
`N/A`. -/
def summarize (prs : List PullRequest) : Summary :=
  { open_prs := (prs.filter fun pr => pr.state = "open").length
    closed_prs := (prs.filter fun pr => pr.state = "closed").length
    num_users := ((prs.map fun pr => pr.user).filter fun u => u ≠ "").toFinset.card
    oldest_pr_date := (oldestFold prs).getD "N/A" }

/-- `get_repository_summary`: load the repository's PR table, then
summarise it. -/
def get_repository_summary (f : FileRead) : Except PyErr Summary := do
  let prs ← load_pull_requests f
  pure (summarize prs)

/-! ## Decimal representation lemmas: `Nat.repr` / `intStr` round-trip
through Python `int` -/

/-- A CSV-plain string: none of its characters is a delimiter, a quote, or
a line break, so it is written and read back verbatim as one unquoted
field on one line. -/
def plainStr (s : String) : Prop :=
  ∀ c ∈ s.data, c ≠ ',' ∧ c ≠ '"' ∧ c ≠ '\n' ∧ c ≠ '\r'

instance (s : String) : Decidable (plainStr s) :=
  List.decidableBAll _ _

theorem digitChar_isDigit {d : Nat} (h : d < 10) :
    (Nat.digitChar d).isDigit = true := by
  interval_cases d <;> decide

theorem digitChar_val {d : Nat} (h : d < 10) :
    (Nat.digitChar d).toNat - 48 = d := by
  interval_cases d <;> decide

theorem toDigitsCore_eq_digits :
    ∀ (fuel n : Nat) (acc : List Char), 0 < n → n < fuel →
      Nat.toDigitsCore 10 fuel n acc
        = ((Nat.digits 10 n).map Nat.digitChar).reverse ++ acc := by
  intro fuel
  induction fuel with
  | zero => intro n acc _ h; omega
  | succ f ih =>
    intro n acc hn hlt
    simp only [Nat.toDigitsCore]
    by_cases h0 : n / 10 = 0
    · have h10 : n < 10 := by omega
      rw [if_pos h0, Nat.digits_of_lt 10 n (by omega) h10,
          Nat.mod_eq_of_lt h10]
      simp
    · have hdiv : n / 10 < n := Nat.div_lt_self hn (by norm_num)
      rw [if_neg h0,
          ih (n / 10) (Nat.digitChar (n % 10) :: acc) (Nat.pos_of_ne_zero h0)
            (by omega),
          Nat.digits_def' (by norm_num : 1 < 10) hn]
      simp

theorem natRepr_data (n : Nat) :
    (Nat.repr n).data = Nat.toDigits 10 n := rfl

theorem natRepr_data_pos (n : Nat) (hn : 0 < n) :
    (Nat.repr n).data = ((Nat.digits 10 n).map Nat.digitChar).reverse := by
  rw [natRepr_data, Nat.toDigits,
      toDigitsCore_eq_digits (n + 1) n [] hn (Nat.lt_succ_self n)]
  simp

theorem natRepr_all_digits (n : Nat) :
    ∀ c ∈ (Nat.repr n).data, c.isDigit = true := by
  rcases Nat.eq_zero_or_pos n with h0 | hp
  · subst h0; intro c hc; simp only [natRepr_data] at hc
    have : c = '0' := by simpa [Nat.toDigits, Nat.toDigitsCore] using hc
    subst this; decide
  · rw [natRepr_data_pos n hp]
    intro c hc
    rw [List.mem_reverse, List.mem_map] at hc
    obtain ⟨d, hd, rfl⟩ := hc
    exact digitChar_isDigit (Nat.digits_lt_base (by norm_num) hd)

theorem natRepr_ne_nil (n : Nat) : (Nat.repr n).data ≠ [] := by
  rcases Nat.eq_zero_or_pos n with h0 | hp
  · subst h0; simp [natRepr_data, Nat.toDigits, Nat.toDigitsCore]
  · rw [natRepr_data_pos n hp]
    simp [Nat.digits_ne_nil_iff_ne_zero.mpr (Nat.pos_iff_ne_zero.mp hp)]

theorem digitsVal_append_last (xs : List Char) (c : Char) :
    digitsVal (xs ++ [c]) = 10 * digitsVal xs + (c.toNat - 48) := by
  simp [digitsVal, List.foldl_append]

theorem digitsVal_rev_map (L : List Nat) (h : ∀ d ∈ L, d < 10) :
    digitsVal ((L.map Nat.digitChar).reverse) = Nat.ofDigits 10 L := by
  induction L with
  | nil => simp [digitsVal, Nat.ofDigits_nil]
  | cons d L ih =>
    simp only [List.map_cons, List.reverse_cons, digitsVal_append_last]
    rw [ih (fun x hx => h x (List.mem_cons_of_mem _ hx)),
        digitChar_val (h d (List.mem_cons_self _ _)), Nat.ofDigits_cons]
    ring

theorem digitsVal_natRepr (n : Nat) : digitsVal (Nat.repr n).data = n := by
  rcases Nat.eq_zero_or_pos n with h0 | hp
  · subst h0; decide
  · rw [natRepr_data_pos n hp,
        digitsVal_rev_map _ (fun d hd => Nat.digits_lt_base (by norm_num) hd),
        Nat.ofDigits_digits]

theorem digit_not_ws (c : Char) (h : c.isDigit = true) :
    c.isWhitespace = false := by
  have h1 : c ≠ ' ' := by intro h1; subst h1; exact absurd h (by decide)
  have h2 : c ≠ '\t' := by intro h2; subst h2; exact absurd h (by decide)
  have h3 : c ≠ '\r' := by intro h3; subst h3; exact absurd h (by decide)
  have h4 : c ≠ '\n' := by intro h4; subst h4; exact absurd h (by decide)
  simp [Char.isWhitespace, h1, h2, h3, h4]

theorem digit_ne (c : Char) (h : c.isDigit = true) :
    c ≠ ',' ∧ c ≠ '"' ∧ c ≠ '\n' ∧ c ≠ '\r' ∧ c ≠ '-' ∧ c ≠ '+' := by
  refine ⟨?_, ?_, ?_, ?_, ?_, ?_⟩ <;> (intro h1; subst h1; exact absurd h (by decide))

theorem dropWhile_eq_self_of_false {p : Char → Bool} :
    ∀ cs : List Char, (∀ c ∈ cs, p c = false) → cs.dropWhile p = cs
  | [], _ => rfl
  | c :: cs, h => by simp [List.dropWhile_cons, h c (List.mem_cons_self _ _)]

theorem stripWs_eq_self (cs : List Char)
    (h : ∀ c ∈ cs, c.isWhitespace = false) : stripWs cs = cs := by
  unfold stripWs
  rw [dropWhile_eq_self_of_false cs h,
      dropWhile_eq_self_of_false cs.reverse
        (fun c hc => h c (List.mem_reverse.mp hc)),
      List.reverse_reverse]

theorem natRepr_plain (n : Nat) : plainStr (Nat.repr n) := by
  intro c hc
  have hd := natRepr_all_digits n c hc
  have := digit_ne c hd
  exact ⟨this.1, this.2.1, this.2.2.1, this.2.2.2.1⟩

theorem intStr_plain (i : Int) : plainStr (intStr i) := by
  cases i with
  | ofNat m => exact natRepr_plain m
  | negSucc m =>
    intro c hc
    simp only [intStr, String.data_append] at hc
    rcases List.mem_append.mp hc with h1 | h1
    · have : c = '-' := by simpa using h1
      subst this; refine ⟨by decide, by decide, by decide, by decide⟩
    · have hd := natRepr_all_digits (m + 1) c h1
      have := digit_ne c hd
      exact ⟨this.1, this.2.1, this.2.2.1, this.2.2.2.1⟩

theorem digitsOnly_of_digits (cs : List Char) (hne : cs ≠ [])
    (h : ∀ c ∈ cs, c.isDigit = true) : digitsOnly cs = true := by
  cases cs with
  | nil => exact absurd rfl hne
  | cons c cs' =>
    simp only [digitsOnly, List.isEmpty_cons, Bool.not_false, Bool.true_and,
      List.all_eq_true]
    exact h

theorem pyIntOf_digits (cs : List Char) (hne : cs ≠ [])
    (h : ∀ c ∈ cs, c.isDigit = true) :
    pyIntOf (String.mk cs) = some ((digitsVal cs : Int)) := by
  have hns : stripWs (String.mk cs).data = cs :=
    stripWs_eq_self cs (fun c hc => digit_not_ws c (h c hc))
  cases cs with
  | nil => exact absurd rfl hne
  | cons c cs' =>
    have hd := h c (List.mem_cons_self _ _)
    have hnd := digit_ne c hd
    have hall : digitsOnly (c :: cs') = true :=
      digitsOnly_of_digits _ (by simp) h
    simp [pyIntOf, hns, hnd.2.2.2.2.1, hnd.2.2.2.2.2, hall]

theorem pyIntOf_intStr (i : Int) : pyIntOf (intStr i) = some i := by
  cases i with
  | ofNat m =>
    have : intStr (Int.ofNat m) = String.mk (Nat.repr m).data := rfl
    rw [this, pyIntOf_digits _ (natRepr_ne_nil m) (natRepr_all_digits m),
        digitsVal_natRepr]
    rfl
  | negSucc m =>
    have hdata : (intStr (Int.negSucc m)).data = '-' :: (Nat.repr (m + 1)).data := by
      simp only [intStr, String.data_append]
      rfl
    have hws : stripWs (intStr (Int.negSucc m)).data
        = '-' :: (Nat.repr (m + 1)).data := by
      rw [hdata]
      refine stripWs_eq_self _ ?_
      intro c hc
      rcases List.mem_cons.mp hc with h1 | h1
      · subst h1; decide
      · exact digit_not_ws c (natRepr_all_digits (m + 1) c h1)
    have hall : digitsOnly (Nat.repr (m + 1)).data = true :=
      digitsOnly_of_digits _ (natRepr_ne_nil (m + 1)) (natRepr_all_digits (m + 1))
    simp only [pyIntOf, hws, hall, if_true, reduceIte]
    rw [digitsVal_natRepr, Int.negSucc_eq]
    push_cast
    ring_nf

/-! ## CSV parser composition lemmas -/

theorem csvGo_unq_run (s : List Char) :
    ∀ (rest acc : List Char), (∀ c ∈ s, c ≠ ',') →
      csvGo (s ++ rest) .unq acc = csvGo rest .unq (acc ++ s) := by
  induction s with
  | nil => intro rest acc _; simp
  | cons c s ih =>
    intro rest acc h
    have hc : c ≠ ',' := h c (List.mem_cons_self _ _)
    simp only [List.cons_append, csvGo, if_neg hc, List.append_eq]
    rw [ih rest (acc ++ [c]) (fun x hx => h x (List.mem_cons_of_mem _ hx))]
    simp

theorem csvGo_unq_end (s : List Char) (acc : List Char)
    (h : ∀ c ∈ s, c ≠ ',') :
    csvGo s .unq acc = [String.mk (acc ++ s)] := by
  have := csvGo_unq_run s [] acc h
  simpa using this

theorem csvGo_start_plain (cs : List Char) (rest : List Char)
    (h : ∀ c ∈ cs, c ≠ ',' ∧ c ≠ '"') :
    csvGo (cs ++ ',' :: rest) .start [] = String.mk cs :: csvGo rest .start [] := by
  cases cs with
  | nil => simp [csvGo]
  | cons c cs' =>
    have hc := h c (List.mem_cons_self _ _)
    simp only [List.cons_append, csvGo, if_neg hc.1, if_neg hc.2,
      List.nil_append, List.append_eq]
    rw [csvGo_unq_run cs' (',' :: rest) [c]
        (fun x hx => (h x (List.mem_cons_of_mem _ hx)).1)]
    simp [csvGo]

theorem csvGo_start_plain_end (cs : List Char)
    (h : ∀ c ∈ cs, c ≠ ',' ∧ c ≠ '"') :
    csvGo cs .start [] = [String.mk cs] := by
  cases cs with
  | nil => simp [csvGo]
  | cons c cs' =>
    have hc := h c (List.mem_cons_self _ _)
    simp only [csvGo, if_neg hc.1, if_neg hc.2, List.nil_append]
    exact csvGo_unq_end cs' [c] (fun x hx => (h x (List.mem_cons_of_mem _ hx)).1)

theorem csvGo_inq_esc (s : List Char) :
    ∀ (rest acc : List Char),
      csvGo (escList s ++ '"' :: rest) .inq acc
        = csvGo rest .postq (acc ++ normList s) := by
  induction s with
  | nil => intro rest acc; simp [escList, normList, csvGo]
  | cons c s ih =>
    intro rest acc
    by_cases hq : c = '"'
    · subst hq
      have he : escList ('"' :: s) = '"' :: '"' :: escList s := by
        simp [escList]
      have hn : normList ('"' :: s) = '"' :: normList s := by
        simp [normList]
      rw [he, hn]
      simp only [List.cons_append, csvGo, reduceIte, List.append_eq]
      rw [ih rest (acc ++ ['"'])]
      simp
    · by_cases hn : c = '\n'
      · subst hn
        have he : escList ('\n' :: s) = ' ' :: escList s := by
          simp [escList]
        have hn2 : normList ('\n' :: s) = ' ' :: normList s := by
          simp [normList]
        rw [he, hn2]
        simp only [List.cons_append, csvGo, reduceIte, List.append_eq]
        rw [ih rest (acc ++ [' '])]
        simp
      · by_cases hr : c = '\r'
        · subst hr
          have he : escList ('\r' :: s) = escList s := by
            simp [escList]
          have hn2 : normList ('\r' :: s) = normList s := by
            simp [normList]
          rw [he, hn2]
          exact ih rest acc
        · have he : escList (c :: s) = c :: escList s := by
            simp [escList, hq, hn, hr]
          have hn2 : normList (c :: s) = c :: normList s := by
            simp [normList, hq, hn, hr]
          rw [he, hn2]
          simp only [List.cons_append, csvGo, if_neg hq, List.append_eq]
          rw [ih rest (acc ++ [c])]
          simp

theorem csvGo_start_quoted (s : List Char) (rest : List Char) :
    csvGo ('"' :: (escList s ++ '"' :: ',' :: rest)) .start []
      = String.mk (normList s) :: csvGo rest .start [] := by
  simp only [csvGo, reduceIte]
  rw [csvGo_inq_esc s (',' :: rest) []]
  simp [csvGo]

theorem csvGo_start_quoted_end (s : List Char) :
    csvGo ('"' :: (escList s ++ ['"'])) .start [] = [String.mk (normList s)] := by
  simp only [csvGo, reduceIte]
  rw [csvGo_inq_esc s [] []]
  simp [csvGo]

/-! ## Written rows parse back into their fields -/

theorem string_mk_data (s : String) : String.mk s.data = s := rfl

theorem comma_data : ("," : String).data = [','] := rfl

theorem plain_pq {s : String} (h : plainStr s) :
    ∀ c ∈ s.data, c ≠ ',' ∧ c ≠ '"' :=
  fun c hc => ⟨(h c hc).1, (h c hc).2.1⟩

theorem intStr_pq (i : Int) : ∀ c ∈ (intStr i).data, c ≠ ',' ∧ c ≠ '"' :=
  plain_pq (intStr_plain i)

theorem escText_data (s : String) : (escText s).data = escList s.data := rfl

theorem user_row_data (u : User) :
    (u.to_csv_string).data
      = u.login.data ++ ',' :: ((intStr u.num_pull_requests).data
      ++ ',' :: ((intStr u.num_repos).data
      ++ ',' :: ((intStr u.num_followers).data
      ++ ',' :: ((intStr u.num_following).data
      ++ ',' :: (intStr u.num_contributions).data)))) := by
  simp [User.to_csv_string, comma_data]

theorem row_data_ne_nil {s : String} {pre : List Char} {post : List Char}
    (hdata : s.data = pre ++ ',' :: post) : s ≠ "" := by
  intro h0
  subst h0
  simp only [String.data] at hdata
  exact absurd hdata.symm (by simp)

theorem parse_user_row (u : User) (h : plainStr u.login) :
    parseCSVLine u.to_csv_string
      = [u.login, intStr u.num_pull_requests, intStr u.num_repos,
         intStr u.num_followers, intStr u.num_following,
         intStr u.num_contributions] := by
  have hdata := user_row_data u
  unfold parseCSVLine
  rw [if_neg (row_data_ne_nil hdata), hdata,
      csvGo_start_plain _ _ (plain_pq h),
      csvGo_start_plain _ _ (intStr_pq _),
      csvGo_start_plain _ _ (intStr_pq _),
      csvGo_start_plain _ _ (intStr_pq _),
      csvGo_start_plain _ _ (intStr_pq _),
      csvGo_start_plain_end _ (intStr_pq _)]

theorem pr_row_data (p : PullRequest) :
    (p.to_csv_string).data
      = (intStr p.number).data
      ++ ',' :: '"' :: (escList p.title.data
      ++ '"' :: ',' :: '"' :: (escList p.body.data
      ++ '"' :: ',' :: (p.state.data
      ++ ',' :: (p.created_at.data
      ++ ',' :: ((p.closed_at.getD "").data
      ++ ',' :: (p.user.data
      ++ ',' :: ((intStr p.commits).data
      ++ ',' :: ((intStr p.additions).data
      ++ ',' :: ((intStr p.deletions).data
      ++ ',' :: ((intStr p.changed_files).data
      ++ ',' :: p.author_association.data)))))))))) := by
  simp [PullRequest.to_csv_string, comma_data, escText_data]

theorem parse_pr_row (p : PullRequest)
    (hst : plainStr p.state) (hcr : plainStr p.created_at)
    (hcl : plainStr (p.closed_at.getD "")) (hus : plainStr p.user)
    (haa : plainStr p.author_association) :
    parseCSVLine p.to_csv_string
      = [intStr p.number, normText p.title, normText p.body, p.state,
         p.created_at, p.closed_at.getD "", p.user, intStr p.commits,
         intStr p.additions, intStr p.deletions, intStr p.changed_files,
         p.author_association] := by
  have hdata := pr_row_data p
  unfold parseCSVLine
  rw [if_neg (row_data_ne_nil hdata), hdata,
      csvGo_start_plain _ _ (intStr_pq _),
      csvGo_start_quoted, csvGo_start_quoted,
      csvGo_start_plain _ _ (plain_pq hst),
      csvGo_start_plain _ _ (plain_pq hcr),
      csvGo_start_plain _ _ (plain_pq hcl),
      csvGo_start_plain _ _ (plain_pq hus),
      csvGo_start_plain _ _ (intStr_pq _),
      csvGo_start_plain _ _ (intStr_pq _),
      csvGo_start_plain _ _ (intStr_pq _),
      csvGo_start_plain _ _ (intStr_pq _),
      csvGo_start_plain_end _ (plain_pq haa)]
  simp [string_mk_data, normText]

theorem repo_row_data (r : Repository) :
    (r.to_csv_string).data
      = r.name.data
      ++ ',' :: (r.owner.data
      ++ ',' :: '"' :: (escList r.description.data
      ++ '"' :: ',' :: (r.homepage.data
      ++ ',' :: (r.license.key.data
      ++ ',' :: (r.license.name.data
      ++ ',' :: ((intStr r.forks).data
      ++ ',' :: ((intStr r.watchers).data
      ++ ',' :: ((intStr r.stars).data
      ++ ',' :: r.date_of_collection.data)))))))) := by
  simp [Repository.to_csv_string, comma_data, escText_data]

theorem parse_repo_row (r : Repository)
    (hna : plainStr r.name) (how : plainStr r.owner)
    (hho : plainStr r.homepage) (hlk : plainStr r.license.key)
    (hln : plainStr r.license.name) (hdc : plainStr r.date_of_collection) :
    parseCSVLine r.to_csv_string
      = [r.name, r.owner, normText r.description, r.homepage, r.license.key,
         r.license.name, intStr r.forks, intStr r.watchers, intStr r.stars,
         r.date_of_collection] := by
  have hdata := repo_row_data r
  unfold parseCSVLine
  rw [if_neg (row_data_ne_nil hdata), hdata,
      csvGo_start_plain _ _ (plain_pq hna),
      csvGo_start_plain _ _ (plain_pq how),
      csvGo_start_quoted,
      csvGo_start_plain _ _ (plain_pq hho),
      csvGo_start_plain _ _ (plain_pq hlk),
      csvGo_start_plain _ _ (plain_pq hln),
      csvGo_start_plain _ _ (intStr_pq _),
      csvGo_start_plain _ _ (intStr_pq _),
      csvGo_start_plain _ _ (intStr_pq _),
      csvGo_start_plain_end _ (plain_pq hdc)]
  simp [string_mk_data, normText]

/-! ## Decoding a written row recovers the record -/

instance {ε α : Type} [DecidableEq ε] [DecidableEq α] : DecidableEq (Except ε α) :=
  fun x y =>
    match x, y with
    | .ok a, .ok b =>
      if h : a = b then isTrue (by rw [h])
      else isFalse (by intro hc; cases hc; exact h rfl)
    | .error a, .error b =>
      if h : a = b then isTrue (by rw [h])
      else isFalse (by intro hc; cases hc; exact h rfl)
    | .ok _, .error _ => isFalse (by intro hc; cases hc)
    | .error _, .ok _ => isFalse (by intro hc; cases hc)

theorem user_header_fields :
    parseCSVLine User.get_csv_header
      = ["login", "num_pull_requests", "num_repos", "num_followers",
         "num_following", "num_contributions"] := rfl

theorem pr_header_fields :
    parseCSVLine PullRequest.get_csv_header
      = ["number", "title", "body", "state", "created_at", "closed_at",
         "user", "commits", "additions", "deletions", "changed_files",
         "author_association"] := rfl

theorem repo_header_fields :
    parseCSVLine Repository.get_csv_header
      = ["name", "owner", "description", "homepage", "license_key",
         "license_name", "forks", "watchers", "stars",
         "date_of_collection"] := rfl

theorem user_decode_fields (l : String) (i1 i2 i3 i4 i5 : Int) :
    User.from_csv_row (zipRow (parseCSVLine User.get_csv_header)
        [l, intStr i1, intStr i2, intStr i3, intStr i4, intStr i5])
      = .ok ⟨l, i1, i2, i3, i4, i5⟩ := by
  have r1 : rowFind (zipRow (parseCSVLine User.get_csv_header)
      [l, intStr i1, intStr i2, intStr i3, intStr i4, intStr i5])
      "num_pull_requests" = some (some (intStr i1)) := rfl
  have r2 : rowFind (zipRow (parseCSVLine User.get_csv_header)
      [l, intStr i1, intStr i2, intStr i3, intStr i4, intStr i5])
      "num_repos" = some (some (intStr i2)) := rfl
  have r3 : rowFind (zipRow (parseCSVLine User.get_csv_header)
      [l, intStr i1, intStr i2, intStr i3, intStr i4, intStr i5])
      "num_followers" = some (some (intStr i3)) := rfl
  have r4 : rowFind (zipRow (parseCSVLine User.get_csv_header)
      [l, intStr i1, intStr i2, intStr i3, intStr i4, intStr i5])
      "num_following" = some (some (intStr i4)) := rfl
  have r5 : rowFind (zipRow (parseCSVLine User.get_csv_header)
      [l, intStr i1, intStr i2, intStr i3, intStr i4, intStr i5])
      "num_contributions" = some (some (intStr i5)) := rfl
  have r0 : rowFind (zipRow (parseCSVLine User.get_csv_header)
      [l, intStr i1, intStr i2, intStr i3, intStr i4, intStr i5])
      "login" = some (some l) := rfl
  simp only [User.from_csv_row, pyGetD, pyGetInt, r0, r1, r2, r3, r4, r5,
    pyIntOf_intStr]
  rfl

theorem pr_decode_fields (t b st cr cl us aa : String) (i1 i2 i3 i4 i5 : Int) :
    PullRequest.from_csv_row (zipRow (parseCSVLine PullRequest.get_csv_header)
        [intStr i1, t, b, st, cr, cl, us, intStr i2, intStr i3, intStr i4,
         intStr i5, aa])
      = .ok ⟨t, i1, b, st, cr, (if cl = "" then none else some cl), us,
             i2, i3, i4, i5, aa⟩ := by
  have r0 : rowFind (zipRow (parseCSVLine PullRequest.get_csv_header)
      [intStr i1, t, b, st, cr, cl, us, intStr i2, intStr i3, intStr i4,
       intStr i5, aa]) "number" = some (some (intStr i1)) := rfl
  have r1 : rowFind (zipRow (parseCSVLine PullRequest.get_csv_header)
      [intStr i1, t, b, st, cr, cl, us, intStr i2, intStr i3, intStr i4,
       intStr i5, aa]) "title" = some (some t) := rfl
  have r2 : rowFind (zipRow (parseCSVLine PullRequest.get_csv_header)
      [intStr i1, t, b, st, cr, cl, us, intStr i2, intStr i3, intStr i4,
       intStr i5, aa]) "body" = some (some b) := rfl
  have r3 : rowFind (zipRow (parseCSVLine PullRequest.get_csv_header)
      [intStr i1, t, b, st, cr, cl, us, intStr i2, intStr i3, intStr i4,
       intStr i5, aa]) "state" = some (some st) := rfl
  have r4 : rowFind (zipRow (parseCSVLine PullRequest.get_csv_header)
      [intStr i1, t, b, st, cr, cl, us, intStr i2, intStr i3, intStr i4,
       intStr i5, aa]) "created_at" = some (some cr) := rfl
  have r5 : rowFind (zipRow (parseCSVLine PullRequest.get_csv_header)
      [intStr i1, t, b, st, cr, cl, us, intStr i2, intStr i3, intStr i4,
       intStr i5, aa]) "closed_at" = some (some cl) := rfl
  have r6 : rowFind (zipRow (parseCSVLine PullRequest.get_csv_header)
      [intStr i1, t, b, st, cr, cl, us, intStr i2, intStr i3, intStr i4,
       intStr i5, aa]) "user" = some (some us) := rfl
  have r7 : rowFind (zipRow (parseCSVLine PullRequest.get_csv_header)
      [intStr i1, t, b, st, cr, cl, us, intStr i2, intStr i3, intStr i4,
       intStr i5, aa]) "commits" = some (some (intStr i2)) := rfl
  have r8 : rowFind (zipRow (parseCSVLine PullRequest.get_csv_header)
      [intStr i1, t, b, st, cr, cl, us, intStr i2, intStr i3, intStr i4,
       intStr i5, aa]) "additions" = some (some (intStr i3)) := rfl
  have r9 : rowFind (zipRow (parseCSVLine PullRequest.get_csv_header)
      [intStr i1, t, b, st, cr, cl, us, intStr i2, intStr i3, intStr i4,
       intStr i5, aa]) "deletions" = some (some (intStr i4)) := rfl
  have r10 : rowFind (zipRow (parseCSVLine PullRequest.get_csv_header)
      [intStr i1, t, b, st, cr, cl, us, intStr i2, intStr i3, intStr i4,
       intStr i5, aa]) "changed_files" = some (some (intStr i5)) := rfl
  have r11 : rowFind (zipRow (parseCSVLine PullRequest.get_csv_header)
      [intStr i1, t, b, st, cr, cl, us, intStr i2, intStr i3, intStr i4,
       intStr i5, aa]) "author_association" = some (some aa) := rfl
  simp only [PullRequest.from_csv_row, pyGetD, pyGetInt, pyGetOpt, r0, r1,
    r2, r3, r4, r5, r6, r7, r8, r9, r10, r11, pyIntOf_intStr]
  rfl

theorem repo_decode_fields (na ow de ho lk ln dc : String) (i1 i2 i3 : Int) :
    Repository.from_csv_row (zipRow (parseCSVLine Repository.get_csv_header)
        [na, ow, de, ho, lk, ln, intStr i1, intStr i2, intStr i3, dc])
      = .ok ⟨na, ow, de, ho, ⟨lk, ln, ""⟩, i1, i2, i3, dc⟩ := by
  have r0 : rowFind (zipRow (parseCSVLine Repository.get_csv_header)
      [na, ow, de, ho, lk, ln, intStr i1, intStr i2, intStr i3, dc])
      "name" = some (some na) := rfl
  have r1 : rowFind (zipRow (parseCSVLine Repository.get_csv_header)
      [na, ow, de, ho, lk, ln, intStr i1, intStr i2, intStr i3, dc])
      "owner" = some (some ow) := rfl
  have r2 : rowFind (zipRow (parseCSVLine Repository.get_csv_header)
      [na, ow, de, ho, lk, ln, intStr i1, intStr i2, intStr i3, dc])
      "description" = some (some de) := rfl
  have r3 : rowFind (zipRow (parseCSVLine Repository.get_csv_header)
      [na, ow, de, ho, lk, ln, intStr i1, intStr i2, intStr i3, dc])
      "homepage" = some (some ho) := rfl
  have r4 : rowFind (zipRow (parseCSVLine Repository.get_csv_header)
      [na, ow, de, ho, lk, ln, intStr i1, intStr i2, intStr i3, dc])
      "license_key" = some (some lk) := rfl
  have r5 : rowFind (zipRow (parseCSVLine Repository.get_csv_header)
      [na, ow, de, ho, lk, ln, intStr i1, intStr i2, intStr i3, dc])
      "license_name" = some (some ln) := rfl
  have r6 : rowFind (zipRow (parseCSVLine Repository.get_csv_header)
      [na, ow, de, ho, lk, ln, intStr i1, intStr i2, intStr i3, dc])
      "forks" = some (some (intStr i1)) := rfl
  have r7 : rowFind (zipRow (parseCSVLine Repository.get_csv_header)
      [na, ow, de, ho, lk, ln, intStr i1, intStr i2, intStr i3, dc])
      "watchers" = some (some (intStr i2)) := rfl
  have r8 : rowFind (zipRow (parseCSVLine Repository.get_csv_header)
      [na, ow, de, ho, lk, ln, intStr i1, intStr i2, intStr i3, dc])
      "stars" = some (some (intStr i3)) := rfl
  have r9 : rowFind (zipRow (parseCSVLine Repository.get_csv_header)
      [na, ow, de, ho, lk, ln, intStr i1, intStr i2, intStr i3, dc])
      "date_of_collection" = some (some dc) := rfl
  simp only [Repository.from_csv_row, pyGetD, pyGetInt, r0, r1, r2, r3, r4,
    r5, r6, r7, r8, r9, pyIntOf_intStr]
  rfl

theorem user_roundtrip (u : User) (h : plainStr u.login) :
    User.from_csv_row (zipRow (parseCSVLine User.get_csv_header)
        (parseCSVLine u.to_csv_string)) = .ok u := by
  rw [parse_user_row u h, user_decode_fields]

theorem pr_roundtrip (p : PullRequest)
    (hst : plainStr p.state) (hcr : plainStr p.created_at)
    (hcl : plainStr (p.closed_at.getD "")) (hus : plainStr p.user)
    (haa : plainStr p.author_association) (hne : p.closed_at ≠ some "") :
    PullRequest.from_csv_row (zipRow (parseCSVLine PullRequest.get_csv_header)
        (parseCSVLine p.to_csv_string))
      = .ok { p with title := normText p.title, body := normText p.body } := by
  rw [parse_pr_row p hst hcr hcl hus haa, pr_decode_fields]
  cases hc : p.closed_at with
  | none => simp
  | some s =>
    have hs : s ≠ "" := by
      intro h0
      subst h0
      exact hne hc
    simp [hs]

theorem repo_roundtrip (r : Repository)
    (hna : plainStr r.name) (how : plainStr r.owner)
    (hho : plainStr r.homepage) (hlk : plainStr r.license.key)
    (hln : plainStr r.license.name) (hdc : plainStr r.date_of_collection) :
    Repository.from_csv_row (zipRow (parseCSVLine Repository.get_csv_header)
        (parseCSVLine r.to_csv_string))
      = .ok { r with description := normText r.description,
                     license := ⟨r.license.key, r.license.name, ""⟩ } := by
  rw [parse_repo_row r hna how hho hlk hln hdc, repo_decode_fields]

/-! ## Loading a file of written rows recovers the records -/

theorem mapM_ok_of_forall {α β : Type} (f : α → Except PyErr β) (g : α → β) :
    ∀ l : List α, (∀ a ∈ l, f a = .ok (g a)) → l.mapM f = .ok (l.map g) := by
  intro l
  induction l with
  | nil => intro _; rfl
  | cons a l ih =>
    intro h
    rw [List.mapM_cons, h a (List.mem_cons_self _ _),
        ih (fun x hx => h x (List.mem_cons_of_mem _ hx))]
    rfl

theorem dictRows_written (hdr : String) (rows : List String)
    (h : ∀ s ∈ rows, parseCSVLine s ≠ []) :
    dictRows (hdr :: rows)
      = rows.map (fun s => zipRow (parseCSVLine hdr) (parseCSVLine s)) := by
  simp only [dictRows]
  rw [List.filter_eq_self.mpr, List.map_map]
  · rfl
  · intro a ha
    rw [List.mem_map] at ha
    obtain ⟨s, hs, rfl⟩ := ha
    simpa using h s hs

theorem parse_user_row_ne_nil (u : User) (h : plainStr u.login) :
    parseCSVLine u.to_csv_string ≠ [] := by
  rw [parse_user_row u h]
  simp

theorem mapM_map_ok {α β γ : Type} (g : α → γ) (f : γ → Except PyErr β)
    (h2 : α → β) :
    ∀ l : List α, (∀ a ∈ l, f (g a) = .ok (h2 a)) →
      (l.map g).mapM f = .ok (l.map h2) := by
  intro l
  induction l with
  | nil => intro _; rfl
  | cons a l ih =>
    intro h
    rw [List.map_cons, List.mapM_cons, h a (List.mem_cons_self _ _),
        ih (fun x hx => h x (List.mem_cons_of_mem _ hx))]
    rfl

theorem load_users_written (us : List User) (h : ∀ u ∈ us, plainStr u.login) :
    load_users (.found (User.get_csv_header :: us.map User.to_csv_string))
      = .ok us := by
  have hd : dictRows (User.get_csv_header :: us.map User.to_csv_string)
      = us.map (fun u =>
          zipRow (parseCSVLine User.get_csv_header)
            (parseCSVLine u.to_csv_string)) := by
    rw [dictRows_written _ _ ?_, List.map_map]
    · rfl
    · intro s hs
      rw [List.mem_map] at hs
      obtain ⟨u, hu, rfl⟩ := hs
      exact parse_user_row_ne_nil u (h u hu)
  show (dictRows (User.get_csv_header :: us.map User.to_csv_string)).mapM
      User.from_csv_row = .ok us
  rw [hd]
  have := mapM_map_ok
      (fun u : User =>
        zipRow (parseCSVLine User.get_csv_header)
          (parseCSVLine u.to_csv_string))
      User.from_csv_row (fun u => u) us
      (fun u hu => user_roundtrip u (h u hu))
  simpa using this

/-! ## Merge-scan and duplicate-detection lemmas -/

theorem mergeScan_found :
    ∀ (us1 : List User) (e : User) (us2 : List User) (u : User),
      (∀ x ∈ us1, x.login ≠ u.login) → e.login = u.login →
      mergeScan (us1 ++ e :: us2) u = us1 ++ mergeUsers e u :: us2 := by
  intro us1
  induction us1 with
  | nil =>
    intro e us2 u _ he
    simp [mergeScan, he]
  | cons x us1 ih =>
    intro e us2 u h he
    have hx : x.login ≠ u.login := h x (List.mem_cons_self _ _)
    simp only [List.cons_append, mergeScan, if_neg hx, List.append_eq]
    rw [ih e us2 u (fun y hy => h y (List.mem_cons_of_mem _ hy)) he]

theorem mergeScan_notfound :
    ∀ (us : List User) (u : User), (∀ x ∈ us, x.login ≠ u.login) →
      mergeScan us u = us ++ [u] := by
  intro us
  induction us with
  | nil => intro u _; rfl
  | cons x us ih =>
    intro u h
    have hx : x.login ≠ u.login := h x (List.mem_cons_self _ _)
    simp only [List.cons_append, mergeScan, if_neg hx]
    rw [ih u (fun y hy => h y (List.mem_cons_of_mem _ hy))]

theorem entry_exists_user (u : User) (h : plainStr u.login) :
    entry_exists [User.get_csv_header, u.to_csv_string] (.user u) u.login
      = true := by
  unfold entry_exists
  rw [show dictRows [User.get_csv_header, u.to_csv_string]
        = [zipRow (parseCSVLine User.get_csv_header)
            (parseCSVLine u.to_csv_string)] from by
      rw [dictRows_written _ _ ?_]
      · rfl
      · intro s hs
        rw [List.mem_singleton] at hs
        subst hs
        exact parse_user_row_ne_nil u h]
  simp only [List.any_cons, List.any_nil, Bool.or_false]
  rw [parse_user_row u h]
  show (u.login == u.login) = true
  exact beq_self_eq_true u.login

theorem entry_exists_pr (p : PullRequest)
    (hst : plainStr p.state) (hcr : plainStr p.created_at)
    (hcl : plainStr (p.closed_at.getD "")) (hus : plainStr p.user)
    (haa : plainStr p.author_association) :
    entry_exists [PullRequest.get_csv_header, p.to_csv_string] (.pr p)
      (intStr p.number) = true := by
  unfold entry_exists
  rw [show dictRows [PullRequest.get_csv_header, p.to_csv_string]
        = [zipRow (parseCSVLine PullRequest.get_csv_header)
            (parseCSVLine p.to_csv_string)] from by
      rw [dictRows_written _ _ ?_]
      · rfl
      · intro s hs
        rw [List.mem_singleton] at hs
        subst hs
        rw [parse_pr_row p hst hcr hcl hus haa]
        simp]
  simp only [List.any_cons, List.any_nil, Bool.or_false]
  rw [parse_pr_row p hst hcr hcl hus haa]
  show (intStr p.number == intStr p.number) = true
  exact beq_self_eq_true _

theorem entry_exists_repo (r : Repository)
    (hna : plainStr r.name) (how : plainStr r.owner)
    (hho : plainStr r.homepage) (hlk : plainStr r.license.key)
    (hln : plainStr r.license.name) (hdc : plainStr r.date_of_collection) :
    entry_exists [Repository.get_csv_header, r.to_csv_string] (.repo r)
      (r.owner ++ "/" ++ r.name) = true := by
  unfold entry_exists
  rw [show dictRows [Repository.get_csv_header, r.to_csv_string]
        = [zipRow (parseCSVLine Repository.get_csv_header)
            (parseCSVLine r.to_csv_string)] from by
      rw [dictRows_written _ _ ?_]
      · rfl
      · intro s hs
        rw [List.mem_singleton] at hs
        subst hs
        rw [parse_repo_row r hna how hho hlk hln hdc]
        simp]
  simp only [List.any_cons, List.any_nil, Bool.or_false]
  rw [parse_repo_row r hna how hho hlk hln hdc]
  show ((r.owner ++ "/" ++ r.name) == (r.owner ++ "/" ++ r.name)) = true
  exact beq_self_eq_true _

/-! ## Summary-aggregator lemmas -/

theorem if_lt_eq_min (d m : String) :
    (if d < m then some d else some m) = some (min m d) := by
  rcases lt_or_le d m with h | h
  · rw [if_pos h, min_eq_right (le_of_lt h)]
  · rw [if_neg (not_lt.mpr h), min_eq_left h]

theorem oldestStep_skip (acc : Option String) (pr : PullRequest)
    (hc : pr.created_at = "") : oldestStep acc pr = acc := by
  unfold oldestStep
  rw [if_neg]
  simp [hc]

theorem oldestStep_none (pr : PullRequest) (hc : pr.created_at ≠ "") :
    oldestStep none pr = some (pr.created_at.take 10) := by
  unfold oldestStep
  rw [if_pos hc]

theorem oldestStep_some (m : String) (pr : PullRequest)
    (hc : pr.created_at ≠ "") :
    oldestStep (some m) pr = some (min m (pr.created_at.take 10)) := by
  unfold oldestStep
  rw [if_pos hc]
  exact if_lt_eq_min _ _

theorem filterMap_dates_cons (pr : PullRequest) (prs : List PullRequest)
    (hc : pr.created_at ≠ "") :
    (pr :: prs).filterMap (fun x =>
        if x.created_at = "" then none else some (x.created_at.take 10))
      = pr.created_at.take 10 :: prs.filterMap (fun x =>
          if x.created_at = "" then none else some (x.created_at.take 10)) := by
  rw [List.filterMap_cons]
  simp [hc]

theorem filterMap_dates_cons_skip (pr : PullRequest) (prs : List PullRequest)
    (hc : pr.created_at = "") :
    (pr :: prs).filterMap (fun x =>
        if x.created_at = "" then none else some (x.created_at.take 10))
      = prs.filterMap (fun x =>
          if x.created_at = "" then none else some (x.created_at.take 10)) := by
  rw [List.filterMap_cons]
  simp [hc]

theorem oldestFold_go (prs : List PullRequest) :
    ∀ m : String,
      prs.foldl oldestStep (some m)
        = some ((prs.filterMap fun pr =>
            if pr.created_at = "" then none
            else some (pr.created_at.take 10)).foldl min m) := by
  induction prs with
  | nil => intro m; rfl
  | cons pr prs ih =>
    intro m
    by_cases hc : pr.created_at = ""
    · rw [List.foldl_cons, oldestStep_skip _ _ hc,
        filterMap_dates_cons_skip _ _ hc, ih m]
    · rw [List.foldl_cons, oldestStep_some _ _ hc,
        filterMap_dates_cons _ _ hc, List.foldl_cons,
        ih (min m (pr.created_at.take 10))]

theorem oldestFold_eq_min (prs : List PullRequest) :
    oldestFold prs
      = (prs.filterMap fun pr =>
          if pr.created_at = "" then none
          else some (pr.created_at.take 10)).min? := by
  induction prs with
  | nil => rfl
  | cons pr prs ih =>
    unfold oldestFold at ih ⊢
    by_cases hc : pr.created_at = ""
    · rw [List.foldl_cons, oldestStep_skip _ _ hc,
        filterMap_dates_cons_skip _ _ hc, ih]
    · rw [List.foldl_cons, oldestStep_none _ hc,
        filterMap_dates_cons _ _ hc, oldestFold_go]
      rfl

theorem users_list_eq (prs : List PullRequest) :
    ((prs.map fun pr => pr.user).filter fun u => u ≠ "")
      = prs.filterMap fun pr =>
          if pr.user = "" then none else some pr.user := by
  induction prs with
  | nil => rfl
  | cons pr prs ih =>
    by_cases hu : pr.user = ""
    · simp only [List.map_cons, List.filter_cons, List.filterMap_cons, hu]
      simpa [ne_eq, decide_not] using ih
    · simp only [List.map_cons, List.filter_cons, List.filterMap_cons,
        if_neg hu]
      simp only [ne_eq, decide_not] at ih
      simp [hu, ih]

/-! ## Filename-scheme lemmas -/

theorem splitOnce_first (o : List Char) (n : List Char)
    (h : '-' ∉ o) : splitOnce '-' (o ++ '-' :: n) = some (o, n) := by
  induction o with
  | nil => simp [splitOnce]
  | cons c o ih =>
    have hc : c ≠ '-' := fun hc => h (hc ▸ List.mem_cons_self _ _)
    simp only [List.cons_append, splitOnce, if_neg hc, List.append_eq,
      ih (fun hm => h (List.mem_cons_of_mem _ hm))]

theorem isPrefixOf_self_append (l t : List Char) :
    l.isPrefixOf (l ++ t) = true := by
  induction l with
  | nil => simp
  | cons a l ih => simp [List.isPrefixOf, ih]

theorem isSuffixOf_csv (s : String) :
    (".csv".data.isSuffixOf (s ++ ".csv").data) = true := by
  show (".csv".data.reverse.isPrefixOf (s ++ ".csv").data.reverse) = true
  rw [String.data_append, List.reverse_append]
  exact isPrefixOf_self_append _ _

theorem take_stem (s : String) :
    (s ++ ".csv").data.take ((s ++ ".csv").data.length - 4) = s.data := by
  rw [String.data_append]
  have hlen : (s.data ++ (".csv" : String).data).length - 4 = s.data.length := by
    simp [String.data_append]
  rw [hlen, List.take_left' rfl]

/-! ## Claim theorems -/

/-- C1 (counterexample): the claim fails as stated for entities whose key
fields contain a CSV delimiter.  A `User` with login `a,b` is written as an
unquoted field, so the duplicate check of the second `to_CSV` parses the
stored row's `login` column as `a`, misses the match, and appends a second
data row with the same key: the file ends with a header and two data
rows. -/
theorem C1_counterexample :
    to_CSV false false none (.user ⟨"a,b", 1, 0, 0, 0, 0⟩)
        = .ok [User.get_csv_header, "a,b,1,0,0,0,0"]
      ∧ to_CSV false false (some [User.get_csv_header, "a,b,1,0,0,0,0"])
          (.user ⟨"a,b", 1, 0, 0, 0, 0⟩)
        = .ok [User.get_csv_header, "a,b,1,0,0,0,0", "a,b,1,0,0,0,0"] := by
  decide

/-- C1 (amended): for every entity of each of the three kinds whose
unquoted row fields are free of CSV metacharacters (`,`, `"`, newlines) —
the `PullRequest` key being numeric always is — appending the entity to a
fresh table yields the header plus exactly its one data row, and appending
the same entity again is a silent no-op returning the file unchanged. -/
theorem C1_append_idempotent :
    (∀ u : User, plainStr u.login →
        to_CSV false false none (.user u)
            = .ok [User.get_csv_header, u.to_csv_string]
          ∧ to_CSV false false (some [User.get_csv_header, u.to_csv_string])
              (.user u)
            = .ok [User.get_csv_header, u.to_csv_string])
      ∧ (∀ p : PullRequest, plainStr p.state → plainStr p.created_at →
          plainStr (p.closed_at.getD "") → plainStr p.user →
          plainStr p.author_association →
          to_CSV false false none (.pr p)
              = .ok [PullRequest.get_csv_header, p.to_csv_string]
            ∧ to_CSV false false
                (some [PullRequest.get_csv_header, p.to_csv_string]) (.pr p)
              = .ok [PullRequest.get_csv_header, p.to_csv_string])
      ∧ (∀ r : Repository, plainStr r.name → plainStr r.owner →
          plainStr r.homepage → plainStr r.license.key →
          plainStr r.license.name → plainStr r.date_of_collection →
          to_CSV false false none (.repo r)
              = .ok [Repository.get_csv_header, r.to_csv_string]
            ∧ to_CSV false false
                (some [Repository.get_csv_header, r.to_csv_string]) (.repo r)
              = .ok [Repository.get_csv_header, r.to_csv_string]) := by
  refine ⟨fun u h => ⟨rfl, ?_⟩,
          fun p h1 h2 h3 h4 h5 => ⟨rfl, ?_⟩,
          fun r h1 h2 h3 h4 h5 h6 => ⟨rfl, ?_⟩⟩
  · simp [to_CSV, get_unique_id, entry_exists_user u h]
  · simp [to_CSV, get_unique_id, entry_exists_pr p h1 h2 h3 h4 h5]
  · simp [to_CSV, get_unique_id, entry_exists_repo r h1 h2 h3 h4 h5 h6]

/-- C1 (witness): the amended theorem applied to concrete entities. -/
theorem C1_append_idempotent_witness :
    to_CSV false false
        (some [User.get_csv_header, User.to_csv_string ⟨"alice", 1, 2, 3, 4, 5⟩])
        (.user ⟨"alice", 1, 2, 3, 4, 5⟩)
      = .ok [User.get_csv_header, User.to_csv_string ⟨"alice", 1, 2, 3, 4, 5⟩] :=
  (C1_append_idempotent.1 ⟨"alice", 1, 2, 3, 4, 5⟩ (by decide)).2

/-- C2 (counterexample): the claim fails as stated when the shared login
contains a CSV delimiter.  The first `update_user_csv` on a missing file
writes the row verbatim; the second one reloads it, `int('b')` raises
`ValueError`, and the update raises instead of summing
`num_pull_requests`. -/
theorem C2_counterexample :
    update_user_csv none ⟨"a,b", 1, 0, 0, 0, 0⟩
        = .ok [User.get_csv_header, "a,b,1,0,0,0,0"]
      ∧ update_user_csv (some [User.get_csv_header, "a,b,1,0,0,0,0"])
          ⟨"a,b", 1, 0, 0, 0, 0⟩ = .error .valueErr := by
  decide

/-- C2 (amended): on a users table whose logins are free of CSV
metacharacters, `update_user_csv` rewrites the file as the canonical
header followed by every merged row; the first stored user with the
incoming login has `num_pull_requests` summed and the four profile
counters maxed, a login with no stored match is appended at the end, and a
missing file is created as header plus the one row. -/
theorem C2_merge_upsert :
    ∀ (us : List User) (u : User), (∀ x ∈ us, plainStr x.login) →
      (update_user_csv (some (User.get_csv_header :: us.map User.to_csv_string)) u
          = .ok (User.get_csv_header :: (mergeScan us u).map User.to_csv_string))
        ∧ (∀ us1 e us2, us = us1 ++ e :: us2 → e.login = u.login →
            (∀ x ∈ us1, x.login ≠ u.login) →
            mergeScan us u = us1 ++
              { e with
                num_pull_requests := e.num_pull_requests + u.num_pull_requests
                num_repos := max e.num_repos u.num_repos
                num_followers := max e.num_followers u.num_followers
                num_following := max e.num_following u.num_following
                num_contributions := max e.num_contributions u.num_contributions }
              :: us2)
        ∧ ((∀ x ∈ us, x.login ≠ u.login) → mergeScan us u = us ++ [u])
        ∧ update_user_csv none u = .ok [User.get_csv_header, u.to_csv_string] := by
  intro us u h
  refine ⟨?_, ?_, mergeScan_notfound us u, rfl⟩
  · show (load_users (.found (User.get_csv_header :: us.map User.to_csv_string))).bind
        (fun existing =>
          pure (User.get_csv_header :: (mergeScan existing u).map User.to_csv_string))
      = .ok (User.get_csv_header :: (mergeScan us u).map User.to_csv_string)
    rw [load_users_written us h]
    rfl
  · intro us1 e us2 hsplit he hnone
    subst hsplit
    exact mergeScan_found us1 e us2 u hnone he

/-- C2 (witness): merging `num_pull_requests=2` into a stored user with
`num_pull_requests=3` and `num_followers=10` against incoming
`num_followers=7`. -/
theorem C2_merge_upsert_witness :
    update_user_csv
        (some (User.get_csv_header :: [⟨"u1", 3, 2, 10, 1, 7⟩].map User.to_csv_string))
        ⟨"u1", 2, 5, 7, 4, 3⟩
      = .ok (User.get_csv_header ::
          (mergeScan [⟨"u1", 3, 2, 10, 1, 7⟩] ⟨"u1", 2, 5, 7, 4, 3⟩).map
            User.to_csv_string)
      ∧ mergeScan [⟨"u1", 3, 2, 10, 1, 7⟩] ⟨"u1", 2, 5, 7, 4, 3⟩
          = [⟨"u1", 5, 5, 10, 4, 7⟩] :=
  ⟨(C2_merge_upsert [⟨"u1", 3, 2, 10, 1, 7⟩] ⟨"u1", 2, 5, 7, 4, 3⟩ (by decide)).1,
   by decide⟩

/-- C3 (code bug): a row whose `num_pull_requests` field is the non-numeric
text `abc` makes `int` raise `ValueError`, which `load_users` does not
catch (it catches only `IOError` and `csv.Error`); the scan aborts and the
perfectly decodable `bob` row after it is lost, instead of the malformed
row being skipped with a diagnostic. -/
theorem C3_malformed_row_aborts :
    load_users (.found
        [User.get_csv_header, "alice,abc,0,0,0,0", "bob,1,0,0,0,0"])
        = .error .valueErr
      ∧ User.from_csv_row (zipRow (parseCSVLine User.get_csv_header)
          (parseCSVLine "bob,1,0,0,0,0")) = .ok ⟨"bob", 1, 0, 0, 0, 0⟩ := by
  decide

/-- C4 (counterexample): field-by-field round-trip fails as stated.  A
repository whose license has a non-empty `url` loses it (the row has no
`license_url` column and `from_csv_row` rebuilds the license with
`url = ''`), and a repository whose `owner` contains a comma is written
unquoted, so the re-parsed row shifts every later column and the decoded
entity differs from the original. -/
theorem C4_counterexample :
    Repository.from_csv_row (zipRow (parseCSVLine Repository.get_csv_header)
        (parseCSVLine (Repository.to_csv_string
          ⟨"r", "o", "", "", ⟨"mit", "MIT", "http://x"⟩, 0, 0, 0, "2024-01-01"⟩)))
        = .ok ⟨"r", "o", "", "", ⟨"mit", "MIT", ""⟩, 0, 0, 0, "2024-01-01"⟩
      ∧ Repository.from_csv_row (zipRow (parseCSVLine Repository.get_csv_header)
          (parseCSVLine (Repository.to_csv_string
            ⟨"r", "a,b", "", "", ⟨"", "", ""⟩, 0, 0, 0, "2024-01-01"⟩)))
          ≠ .ok ⟨"r", "a,b", "", "", ⟨"", "", ""⟩, 0, 0, 0, "2024-01-01"⟩ := by
  decide

/-- C4 (amended): writing with `to_csv_string`, parsing that line with the
table's reader and decoding with `from_csv_row` recovers the entity
field-by-field, provided the unquoted fields carry no CSV metacharacters
(`,`, `"`, line breaks) and `closed_at` is not the empty string — with the
two deviations the encoding forces: quoted free text (`title`, `body`,
`description`) comes back in its single-line display form (quotes intact,
newlines as spaces, carriage returns dropped), and `Repository.license.url`
is not persisted, so it decodes as empty. -/
theorem C4_roundtrip :
    (∀ u : User, plainStr u.login →
        User.from_csv_row (zipRow (parseCSVLine User.get_csv_header)
          (parseCSVLine u.to_csv_string)) = .ok u)
      ∧ (∀ p : PullRequest, plainStr p.state → plainStr p.created_at →
          plainStr (p.closed_at.getD "") → plainStr p.user →
          plainStr p.author_association → p.closed_at ≠ some "" →
          PullRequest.from_csv_row (zipRow (parseCSVLine PullRequest.get_csv_header)
            (parseCSVLine p.to_csv_string))
            = .ok { p with title := normText p.title, body := normText p.body })
      ∧ (∀ r : Repository, plainStr r.name → plainStr r.owner →
          plainStr r.homepage → plainStr r.license.key →
          plainStr r.license.name → plainStr r.date_of_collection →
          Repository.from_csv_row (zipRow (parseCSVLine Repository.get_csv_header)
            (parseCSVLine r.to_csv_string))
            = .ok { r with description := normText r.description,
                           license := ⟨r.license.key, r.license.name, ""⟩ }) :=
  ⟨user_roundtrip, pr_roundtrip, repo_roundtrip⟩

/-- C4 (witness): round-trip of a pull request whose title and body hold
embedded quotes and newlines. -/
theorem C4_roundtrip_witness :
    PullRequest.from_csv_row (zipRow (parseCSVLine PullRequest.get_csv_header)
        (parseCSVLine (PullRequest.to_csv_string
          ⟨"PR with \"quotes\" and\nnewlines", 7, "body\nwith \"stuff\"",
           "open", "2024-01-02", some "2024-01-03", "alice", 1, 2, 3, 4,
           "OWNER"⟩)))
      = .ok ⟨normText "PR with \"quotes\" and\nnewlines", 7,
             normText "body\nwith \"stuff\"", "open", "2024-01-02",
             some "2024-01-03", "alice", 1, 2, 3, 4, "OWNER"⟩ :=
  C4_roundtrip.2.1
    ⟨"PR with \"quotes\" and\nnewlines", 7, "body\nwith \"stuff\"", "open",
     "2024-01-02", some "2024-01-03", "alice", 1, 2, 3, 4, "OWNER"⟩
    (by decide) (by decide) (by decide) (by decide) (by decide) (by decide)

/-- C5: each full-table scan treats a missing table file as an empty
table, returning the empty list rather than an error. -/
theorem C5_missing_file_empty :
    load_repositories .missing = .ok []
      ∧ load_pull_requests .missing = .ok []
      ∧ load_users .missing = .ok [] :=
  ⟨rfl, rfl, rfl⟩

/-- C6 (counterexample): a blank integer field does not default to 0 — a
present-but-empty `num_pull_requests` goes through `int('')`, which raises
`ValueError`, so decoding the row fails. -/
theorem C6_counterexample :
    User.from_csv_row [("login", some "alice"), ("num_pull_requests", some "")]
      = .error .valueErr := by
  decide

/-- C6 (amended): an integer field absent from the row mapping coerces to
the default 0 and optional fields default to empty/absent (`closed_at` to
`None`, strings to `''`, the rebuilt license `url` to `''`); a blank
(present but empty-string) integer field instead raises `ValueError`. -/
theorem C6_absent_defaults :
    (∀ l : String, User.from_csv_row [("login", some l)]
        = .ok ⟨l, 0, 0, 0, 0, 0⟩)
      ∧ (∀ t : String, PullRequest.from_csv_row [("title", some t)]
          = .ok ⟨t, 0, "", "", "", none, "", 0, 0, 0, 0, ""⟩)
      ∧ Repository.from_csv_row []
          = .ok ⟨"", "", "", "", ⟨"", "", ""⟩, 0, 0, 0, ""⟩
      ∧ (∀ (row : Row) (k : String), rowFind row k = some (some "") →
          pyGetInt row k = .error .valueErr) := by
  refine ⟨fun l => rfl, fun t => rfl, rfl, ?_⟩
  intro row k h
  simp [pyGetInt, h, pyIntOf, stripWs]

/-- C6 (witness): the amended theorem at a concrete row with all integer
fields absent, and at a concrete row with a blank integer field. -/
theorem C6_absent_defaults_witness :
    User.from_csv_row [("login", some "alice")]
        = .ok ⟨"alice", 0, 0, 0, 0, 0⟩
      ∧ pyGetInt [("num_pull_requests", some "")] "num_pull_requests"
          = .error .valueErr :=
  ⟨C6_absent_defaults.1 "alice",
   C6_absent_defaults.2.2.2 [("num_pull_requests", some "")]
     "num_pull_requests" (by decide)⟩

/-- C7 (counterexample): a write failure is not absorbed.  The
`open(filename, 'a')` in `to_CSV` sits outside every `try`, so an
`IOError` there escapes the persistence layer, contradicting the claim
that no operation raises past its boundary. -/
theorem C7_counterexample :
    to_CSV false true none (.user ⟨"alice", 1, 0, 0, 0, 0⟩)
      = .error .ioErr := by
  decide

/-- C7 (amended): read-side I/O failures are absorbed at the operation
boundary — the three scans return the empty list, and a failing duplicate
check in `to_CSV` is treated as "not present", so the append still goes
through — but a write failure in `to_CSV` propagates to the caller as an
exception. -/
theorem C7_io_failures :
    load_repositories .readFail = .ok []
      ∧ load_pull_requests .readFail = .ok []
      ∧ load_users .readFail = .ok []
      ∧ (∀ (lines : List String) (e : Entity),
          to_CSV true false (some lines) e = .ok (lines ++ [e.to_csv_string]))
      ∧ (∀ e : Entity, to_CSV false true none e = .error .ioErr) := by
  refine ⟨rfl, rfl, rfl, fun lines e => rfl, fun e => rfl⟩

/-- C7 (witness): the amended theorem's universally quantified parts at a
concrete file and entity. -/
theorem C7_io_failures_witness :
    to_CSV true false (some [User.get_csv_header])
        (.user ⟨"alice", 1, 0, 0, 0, 0⟩)
      = .ok [User.get_csv_header, User.to_csv_string ⟨"alice", 1, 0, 0, 0, 0⟩]
      ∧ to_CSV false true none (.user ⟨"alice", 1, 0, 0, 0, 0⟩)
        = .error .ioErr :=
  ⟨C7_io_failures.2.2.2.1 [User.get_csv_header] (.user ⟨"alice", 1, 0, 0, 0, 0⟩),
   C7_io_failures.2.2.2.2 (.user ⟨"alice", 1, 0, 0, 0, 0⟩)⟩

/-- C10: on an existing file `to_CSV` either returns the lines unchanged
(duplicate key) or appends exactly one row at the end; it never reorders,
deletes, or rewrites anything, and in particular the first line stays the
file's header.  `update_user_csv`, by contrast, rewrites the whole file:
any successful update of an existing file is the canonical header followed
by the serialisation of the merged in-memory list. -/
theorem C10_frame :
    (∀ (lines : List String) (e : Entity),
        to_CSV false false (some lines) e = .ok lines
          ∨ to_CSV false false (some lines) e
              = .ok (lines ++ [e.to_csv_string]))
      ∧ (∀ (lines : List String) (u : User) (res : List String),
          update_user_csv (some lines) u = .ok res →
          ∃ vs : List User,
            res = User.get_csv_header :: vs.map User.to_csv_string) := by
  constructor
  · intro lines e
    by_cases h : entry_exists lines e (get_unique_id e) = true
    · left
      simp [to_CSV, h]
    · right
      simp only [Bool.not_eq_true] at h
      simp [to_CSV, h]
  · intro lines u res h
    cases hl : load_users (.found lines) with
    | error err =>
      exfalso
      rw [show update_user_csv (some lines) u
            = (load_users (.found lines)).bind
                (fun existing =>
                  pure (User.get_csv_header ::
                    (mergeScan existing u).map User.to_csv_string)) from rfl,
          hl] at h
      exact Except.noConfusion h
    | ok us =>
      refine ⟨mergeScan us u, ?_⟩
      rw [show update_user_csv (some lines) u
            = (load_users (.found lines)).bind
                (fun existing =>
                  pure (User.get_csv_header ::
                    (mergeScan existing u).map User.to_csv_string)) from rfl,
          hl] at h
      cases h
      rfl

/-- C10 (witness): the frame theorem at a concrete file and entity. -/
theorem C10_frame_witness :
    (to_CSV false false (some [User.get_csv_header])
          (.user ⟨"alice", 1, 0, 0, 0, 0⟩)
        = .ok [User.get_csv_header]
      ∨ to_CSV false false (some [User.get_csv_header])
          (.user ⟨"alice", 1, 0, 0, 0, 0⟩)
        = .ok ([User.get_csv_header]
            ++ [User.to_csv_string ⟨"alice", 1, 0, 0, 0, 0⟩]))
      ∧ ∃ vs : List User,
          [User.get_csv_header, User.to_csv_string ⟨"bob", 2, 0, 0, 0, 0⟩]
            = User.get_csv_header :: vs.map User.to_csv_string :=
  ⟨C10_frame.1 [User.get_csv_header] (.user ⟨"alice", 1, 0, 0, 0, 0⟩),
   C10_frame.2 [User.get_csv_header] ⟨"bob", 2, 0, 0, 0, 0⟩
     [User.get_csv_header, User.to_csv_string ⟨"bob", 2, 0, 0, 0, 0⟩]
     (by decide)⟩

/-- C8: the summary counts states by exact string match against `open` and
`closed` (anything else counted in neither), counts the distinct non-empty
`user` values, and reports the lexicographically smallest 10-character
prefix of the non-empty `created_at` values, with the sentinel `N/A` when
no PR carries a date; it is computed from the loaded PR table; and the
three-PR scenario of the spec yields `open=2, closed=1, users=1,
earliest=2024-01-10`. -/
theorem C8_summary :
    (∀ prs : List PullRequest,
        (summarize prs).open_prs = prs.countP (fun pr => pr.state = "open")
          ∧ (summarize prs).closed_prs
              = prs.countP (fun pr => pr.state = "closed")
          ∧ (summarize prs).num_users
              = (prs.filterMap fun pr =>
                  if pr.user = "" then none else some pr.user).toFinset.card
          ∧ (summarize prs).oldest_pr_date
              = ((prs.filterMap fun pr =>
                  if pr.created_at = "" then none
                  else some (pr.created_at.take 10)).min?).getD "N/A")
      ∧ (∀ (f : FileRead) (prs : List PullRequest),
          load_pull_requests f = .ok prs →
          get_repository_summary f = .ok (summarize prs))
      ∧ summarize
          [⟨"", 1, "", "open", "2024-01-15", none, "", 0, 0, 0, 0, ""⟩,
           ⟨"", 2, "", "closed", "2024-01-10", none, "alice", 0, 0, 0, 0, ""⟩,
           ⟨"", 3, "", "open", "2024-02-01", none, "alice", 0, 0, 0, 0, ""⟩]
          = ⟨2, 1, 1, "2024-01-10"⟩ := by
  refine ⟨fun prs => ⟨?_, ?_, ?_, ?_⟩, ?_, ?_⟩
  · simp [summarize, List.countP_eq_length_filter]
  · simp [summarize, List.countP_eq_length_filter]
  · show ((prs.map fun pr => pr.user).filter fun u => u ≠ "").toFinset.card = _
    rw [users_list_eq]
  · show (oldestFold prs).getD "N/A" = _
    rw [oldestFold_eq_min]
  · intro f prs h
    show (load_pull_requests f).bind (fun prs => pure (summarize prs))
        = .ok (summarize prs)
    rw [h]
    rfl
  · have ht1 : ("2024-01-15" : String).take 10 = "2024-01-15" := by decide
    have ht2 : ("2024-01-10" : String).take 10 = "2024-01-10" := by decide
    have ht3 : ("2024-02-01" : String).take 10 = "2024-02-01" := by decide
    have hlt1 : ("2024-01-10" : String) < "2024-01-15" := by
      rw [String.lt_iff_toList_lt]
      decide
    have hlt2 : ("2024-01-10" : String) < "2024-02-01" := by
      rw [String.lt_iff_toList_lt]
      decide
    have hof : oldestFold
        [⟨"", 1, "", "open", "2024-01-15", none, "", 0, 0, 0, 0, ""⟩,
         ⟨"", 2, "", "closed", "2024-01-10", none, "alice", 0, 0, 0, 0, ""⟩,
         ⟨"", 3, "", "open", "2024-02-01", none, "alice", 0, 0, 0, 0, ""⟩]
        = some "2024-01-10" := by
      unfold oldestFold
      rw [List.foldl_cons, oldestStep_none _ (by decide),
          List.foldl_cons, oldestStep_some _ _ (by decide),
          List.foldl_cons, oldestStep_some _ _ (by decide), List.foldl_nil]
      show some (min (min ("2024-01-15".take 10) ("2024-01-10".take 10))
          ("2024-02-01".take 10)) = some "2024-01-10"
      rw [ht1, ht2, ht3, min_eq_right (le_of_lt hlt1),
          min_eq_left (le_of_lt hlt2)]
    show Summary.mk _ _ _ _ = _
    rw [show (oldestFold
        [⟨"", 1, "", "open", "2024-01-15", none, "", 0, 0, 0, 0, ""⟩,
         ⟨"", 2, "", "closed", "2024-01-10", none, "alice", 0, 0, 0, 0, ""⟩,
         ⟨"", 3, "", "open", "2024-02-01", none, "alice", 0, 0, 0, 0, ""⟩]).getD
          "N/A" = "2024-01-10" from by rw [hof]; rfl]
    simp only [Summary.mk.injEq]
    refine ⟨by decide, by decide, by decide, trivial⟩

/-- C8 (witness): the load-then-summarise composition at a concrete
(missing) table. -/
theorem C8_summary_witness :
    get_repository_summary .missing = .ok (summarize []) :=
  C8_summary.2.1 .missing [] rfl

/-- C9: `load_all_pull_requests` keeps exactly the listed files with the
`.csv` suffix, splits each stem at the first `-` to recover
`(owner, name)`, and tags each decoded PR with `owner/name`; when the
owner contains no `-`, this exactly inverts the naming scheme
`projects/<owner>-<name>.csv` used by the save and load paths, even when
the repository name itself contains `-`. -/
theorem C9_enumerate :
    ∀ (owner rname : String) (fs : String → FileRead)
      (prs : List PullRequest),
      '-' ∉ owner.data →
      load_pull_requests (fs ("projects/" ++ owner ++ "-" ++ rname ++ ".csv"))
          = .ok prs →
      load_all_pull_requests [owner ++ "-" ++ rname ++ ".csv"] fs
        = .ok (prs.map fun pr => (owner ++ "/" ++ rname, pr)) := by
  intro owner rname fs prs hdash hload
  unfold load_all_pull_requests
  simp only [List.foldlM_cons, List.foldlM_nil]
  have hsuf := isSuffixOf_csv (owner ++ "-" ++ rname)
  have hstem : (owner ++ "-" ++ rname).data
      = owner.data ++ '-' :: rname.data := by
    simp [String.data_append]
  rw [if_pos hsuf, take_stem (owner ++ "-" ++ rname), hstem,
      splitOnce_first _ _ hdash]
  simp only [string_mk_data]
  rw [hload]
  simp

/-- C9 (witness): the enumeration theorem at a concrete listing with a
repository name that itself contains the separator. -/
theorem C9_enumerate_witness :
    load_all_pull_requests ["octo-hello-world.csv"]
        (fun p =>
          if p = "projects/octo-hello-world.csv" then
            .found [PullRequest.get_csv_header,
                    "1,\"t\",\"b\",open,2024-01-01,,alice,0,0,0,0,NONE"]
          else .missing)
      = .ok ([⟨"t", 1, "b", "open", "2024-01-01", none, "alice", 0, 0, 0, 0,
              "NONE"⟩].map fun pr => ("octo" ++ "/" ++ "hello-world", pr)) :=
  C9_enumerate "octo" "hello-world"
    (fun p =>
      if p = "projects/octo-hello-world.csv" then
        .found [PullRequest.get_csv_header,
                "1,\"t\",\"b\",open,2024-01-01,,alice,0,0,0,0,NONE"]
      else .missing)
    [⟨"t", 1, "b", "open", "2024-01-01", none, "alice", 0, 0, 0, 0, "NONE"⟩]
    (by decide) (by decide)
